import Mathlib

/-!
Verification of the TMDB regression-project data-cleaning pipeline.

This file gives a shallow embedding of the cleaning core of the repository:
  - src/data_cleaning.py      (CleanHandler.clean_missing_values, select_features)
  - src/handle_missing_values.py (DropMissingValues.handle)
  - src/select_features.py    (SelectFeatures.select)
  - src/clean_dataset.py      (rvote_average, rbudget_revenue)
  - src/ingest_data.py        (ZipDataIngestor.ingest)

Tables are modelled column-major: a table is a row index (as produced by
reset_index / preserved by fillna) together with a list of named, typed
columns.  Missing entries (NaN) are `none`; numeric values are modelled as
rationals.  Fallible operations return `Except PyErr`, mirroring the Python
exceptions (`ValueError`, `KeyError`, `IndexError`, `FileNotFoundError`).
File output is modelled by reporting the name a CSV would be written under,
since actual disk IO is outside the embedding.
-/

/-- A cell value: a number (pandas numeric dtypes, modelled as rationals) or a
string (object dtype). -/
inductive Val where
  | num (q : ℚ)
  | str (s : String)
  deriving DecidableEq

/-- A table cell: `none` models a missing entry (NaN). -/
abbrev Cell := Option Val

/-- Column dtype, as used by select_dtypes(include="number"). -/
inductive DType where
  | number
  | object
  deriving DecidableEq

/-- A named, typed column of cells. -/
structure Col where
  name : String
  dtype : DType
  cells : List Cell
  deriving DecidableEq

/-- A table: a row index (pandas index labels) plus columns. Rows are
positionally aligned across columns. -/
structure Table where
  idx : List Nat
  cols : List Col
  deriving DecidableEq

/-- The Python exceptions raised by the cleaning code. -/
inductive PyErr where
  | valueError (msg : String)
  | keyError (key : String)
  | indexError
  | fileNotFoundError
  deriving DecidableEq

/-- Numeric view of a cell: NaN and strings have no numeric value. -/
def Cell.toNum : Cell → Option ℚ
  | some (Val.num q) => some q
  | some (Val.str _) => none
  | none => none

/-- Number of non-missing entries in a row or column (pandas count). -/
def nonNullCount (r : List Cell) : Nat := r.countP (fun c => c.isSome)

/-- Number of rows of a table. -/
def Table.rowCount (t : Table) : Nat := t.idx.length

/-- The i-th row of a table, read across the columns. -/
def Table.row (t : Table) (i : Nat) : List Cell :=
  t.cols.map (fun c => c.cells.getD i none)

/-- All rows of a table, in order. -/
def Table.rows (t : Table) : List (List Cell) :=
  (List.range t.rowCount).map t.row

/-- The column names of a table, in order. -/
def Table.colNames (t : Table) : List String := t.cols.map Col.name

/-- Label-based column lookup (df[name] on a table with unique labels):
the first column bearing the name. -/
def lookupCol (t : Table) (n : String) : Option Col :=
  t.cols.find? (fun c => decide (c.name = n))

/-- The cell of column `n` at row position `i` (missing if out of range). -/
def cellAt (t : Table) (n : String) (i : Nat) : Cell :=
  match lookupCol t n with
  | some c => c.cells.getD i none
  | none => none

/-- Python str.endswith: suffix test on the character sequence. -/
def strEndsWith (s suffix : String) : Bool := suffix.data.isSuffixOf s.data

/-- fillna at cell level: a present value is kept, a missing one is replaced
by `v`; when `v` is itself missing (NaN fill value) the cell stays missing. -/
def fillCell (v : Cell) : Cell → Cell
  | some x => some x
  | none => v

/-- Column mean over the non-missing numeric values (pandas Series.mean with
skipna): NaN (here `none`) when there is no such value. -/
def colMean (cells : List Cell) : Cell :=
  let vals := cells.filterMap Cell.toNum
  if vals.length = 0 then none else some (Val.num (vals.sum / (vals.length : ℚ)))

/-- Insert a rational into a sorted list (ascending). -/
def insertSorted (q : ℚ) : List ℚ → List ℚ
  | [] => [q]
  | x :: xs => if q ≤ x then q :: x :: xs else x :: insertSorted q xs

/-- Sort a list of rationals ascending (insertion sort). -/
def sortQ (l : List ℚ) : List ℚ := l.foldr insertSorted []

/-- Column median over the non-missing numeric values (pandas Series.median
with skipna): middle element of the sorted values, average of the two middle
elements for an even count, NaN when there is no value. -/
def colMedian (cells : List Cell) : Cell :=
  let vals := sortQ (cells.filterMap Cell.toNum)
  let n := vals.length
  if n = 0 then none
  else if n % 2 = 1 then some (Val.num (vals.getD (n / 2) 0))
  else some (Val.num ((vals.getD (n / 2 - 1) 0 + vals.getD (n / 2) 0) / 2))

/-- A modal value of a list: a value of maximal multiplicity (Series.mode()
restricted to what the code uses, namely one modal value via .iloc[0]; which
value is picked on ties is irrelevant to every property proved below).
`none` exactly when the list is empty, in which case .iloc[0] raises. -/
def modeVal (l : List Val) : Option Val :=
  l.foldl
    (fun acc v =>
      match acc with
      | none => some v
      | some m => if l.count m < l.count v then some v else acc)
    none

/-- Fill a column with its own modal value; df[column].mode().iloc[0] raises
IndexError when the column has no non-missing value. -/
def fillColMode (c : Col) : Except PyErr Col :=
  match modeVal (c.cells.filterMap id) with
  | none => Except.error PyErr.indexError
  | some m => Except.ok { c with cells := c.cells.map (fillCell (some m)) }

/-- Whether the table has a column of numeric dtype
(select_dtypes(include="number") nonempty). -/
def hasNumericCol (t : Table) : Bool :=
  t.cols.any (fun c => decide (c.dtype = DType.number))

/-- Fill a numeric column with its aggregate; leave other columns alone. -/
def fillNumericCol (agg : List Cell → Cell) (c : Col) : Col :=
  if c.dtype = DType.number then
    { c with cells := c.cells.map (fillCell (agg c.cells)) }
  else c

/-- Fill every numeric column with its own aggregate (mean or median), as in
df_cleaned[numeric_columns].fillna(df[numeric_columns].agg()). -/
def fillNumeric (agg : List Cell → Cell) (t : Table) : Table :=
  { t with cols := t.cols.map (fillNumericCol agg) }

/-- df.fillna(v): replace every missing cell of every column by `v`. -/
def fillAll (v : Val) (t : Table) : Table :=
  { t with
    cols := t.cols.map (fun c => { c with cells := c.cells.map (fillCell (some v)) }) }

/-- Row-keeping test of df.dropna(axis=0, thresh): with a threshold, keep the
rows with at least `k` non-missing entries; without, keep the rows with no
missing entry. -/
def keepRow (thresh : Option Nat) (r : List Cell) : Bool :=
  match thresh with
  | some k => decide (k ≤ nonNullCount r)
  | none => r.all (fun c => c.isSome)

/-- Column-keeping test of df.dropna(axis=1, thresh). -/
def keepCol (thresh : Option Nat) (c : Col) : Bool :=
  match thresh with
  | some k => decide (k ≤ nonNullCount c.cells)
  | none => c.cells.all (fun x => x.isSome)

/-- Restrict a cell list to the row positions in `keep`, in order. -/
def maskList (keep : List Nat) (l : List Cell) : List Cell :=
  keep.map (fun i => l.getD i none)

/-- Keep the row positions listed in `keep` (in order) and install the given
new index: the common shape of boolean-mask row filtering and dropna on rows. -/
def maskTable (idx' : List Nat) (keep : List Nat) (t : Table) : Table :=
  { idx := idx',
    cols := t.cols.map (fun c => { c with cells := maskList keep c.cells }) }

/-- df.dropna(axis, thresh): drop columns (axis=1) or rows (otherwise; the
code only passes 0 or 1) that fail the keeping test.  Dropping rows keeps the
surviving rows' original index labels, as pandas does. -/
def dropna (t : Table) (axis : Nat) (thresh : Option Nat) : Table :=
  if axis = 1 then
    { t with cols := t.cols.filter (keepCol thresh) }
  else
    let keep := (List.range t.rowCount).filter (fun i => keepRow thresh (t.row i))
    maskTable (keep.map (fun i => t.idx.getD i 0)) keep t

/-- DropMissingValues.handle (src/handle_missing_values.py): delegates to
df.dropna with the stored axis and threshold. -/
def dropMissingValues_handle (axis : Nat) (thresh : Option Nat) (df : Table) : Table :=
  dropna df axis thresh

/-- Sequential fallible map: stops at the first error, as a Python loop whose
body can raise does. -/
def mapE {α β : Type} (f : α → Except PyErr β) : List α → Except PyErr (List β)
  | [] => Except.ok []
  | a :: as =>
    match f a with
    | Except.error e => Except.error e
    | Except.ok b =>
      match mapE f as with
      | Except.error e => Except.error e
      | Except.ok bs => Except.ok (b :: bs)

/-- The save block shared by the cleaning functions: when `save` is requested
the name must be non-empty (else ValueError); the returned option records the
name a CSV was written under (`none` when nothing was written). -/
def savePhase (t : Table) (save : Bool) (name : String) :
    Except PyErr (Table × Option String) :=
  if save then
    if name = "" then
      Except.error (PyErr.valueError "name cannot be empty if save is True")
    else Except.ok (t, some name)
  else Except.ok (t, none)

/-- CleanHandler.clean_missing_values (src/data_cleaning.py).  Branches on the
method string exactly as the source does; the unknown-method branch returns
the (copied) input table before the save block is reached. -/
def clean_missing_values (df : Table) (method : String) (fill_value : Cell)
    (axis : Nat) (thresh : Option Nat) (save : Bool) (name : String) :
    Except PyErr (Table × Option String) :=
  if method = "mean" ∨ method = "median" then
    let t :=
      if hasNumericCol df then
        fillNumeric (if method = "mean" then colMean else colMedian) df
      else df
    savePhase t save name
  else if method = "mode" then
    match mapE fillColMode df.cols with
    | Except.error e => Except.error e
    | Except.ok cs => savePhase { df with cols := cs } save name
  else if method = "constant" then
    match fill_value with
    | none => Except.error (PyErr.valueError "fill_value must be provided for method constant")
    | some v => savePhase (fillAll v df) save name
  else if method = "drop" then
    savePhase (dropna df axis thresh) save name
  else
    Except.ok (df, none)

/-- Column lookup as df[name] uses it: KeyError when the label is absent. -/
def lookupE (df : Table) (n : String) : Except PyErr Col :=
  match lookupCol df n with
  | some c => Except.ok c
  | none => Except.error (PyErr.keyError n)

/-- SelectFeatures.select (src/select_features.py) and the selection core of
CleanHandler.select_features: df[features].copy(), raising KeyError at an
absent label. -/
def select (df : Table) (features : List String) : Except PyErr Table :=
  match mapE (lookupE df) features with
  | Except.error e => Except.error e
  | Except.ok cs => Except.ok { idx := df.idx, cols := cs }

/-- CleanHandler.select_features (src/data_cleaning.py): selection followed by
the optional save block. -/
def select_features (df : Table) (features : List String) (save : Bool) (name : String) :
    Except PyErr (Table × Option String) :=
  match select df features with
  | Except.error e => Except.error e
  | Except.ok t => savePhase t save name

/-- Boolean test of `series > 0` on a cell of a numeric column: NaN compares
false; the embedding is only used on numeric-dtype columns, where no string
occurs. -/
def gtZero : Cell → Bool
  | some (Val.num q) => decide (0 < q)
  | some (Val.str _) => false
  | none => false

/-- Keep the row positions of `keep` and reset the index to 0..n-1, as
dataframe[mask].reset_index(drop=True). -/
def filterReset (t : Table) (keep : List Nat) : Table :=
  maskTable (List.range keep.length) keep t

/-- rvote_average (src/clean_dataset.py): keep the rows with vote_average > 0
and vote_count > 0, then reset_index(drop=True). -/
def rvote_average (t : Table) : Except PyErr Table :=
  match lookupCol t "vote_average", lookupCol t "vote_count" with
  | some ca, some cc =>
    Except.ok (filterReset t ((List.range t.rowCount).filter
      (fun i => gtZero (ca.cells.getD i none) && gtZero (cc.cells.getD i none))))
  | none, _ => Except.error (PyErr.keyError "vote_average")
  | _, none => Except.error (PyErr.keyError "vote_count")

/-- rbudget_revenue (src/clean_dataset.py): keep the rows with budget > 0 and
revenue > 0, then reset_index(drop=True). -/
def rbudget_revenue (t : Table) : Except PyErr Table :=
  match lookupCol t "budget", lookupCol t "revenue" with
  | some cb, some cr =>
    Except.ok (filterReset t ((List.range t.rowCount).filter
      (fun i => gtZero (cb.cells.getD i none) && gtZero (cr.cells.getD i none))))
  | none, _ => Except.error (PyErr.keyError "budget")
  | _, none => Except.error (PyErr.keyError "revenue")

/-- The full row filter of the cleaning pipeline (clean_dataset.py main):
rvote_average then rbudget_revenue (drop_columns in between does not touch
rows and none of the four predicate columns is in its drop list). -/
def rowFilter (t : Table) : Except PyErr Table :=
  match rvote_average t with
  | Except.error e => Except.error e
  | Except.ok t₁ => rbudget_revenue t₁

/-- The §3 row-validity predicate at row position `i`:
vote_average > 0, vote_count > 0, budget > 0, revenue > 0. -/
def validRow (t : Table) (i : Nat) : Bool :=
  (gtZero (cellAt t "vote_average" i) && gtZero (cellAt t "vote_count" i)) &&
  (gtZero (cellAt t "budget" i) && gtZero (cellAt t "revenue" i))

/-- ZipDataIngestor.ingest (src/ingest_data.py).  The filesystem is abstracted
by `listing`, the directory listing of the extraction target after extractall;
the boolean of the result records whether extraction was performed, and the
successful value is the path of the CSV that gets loaded. -/
def ingest (file_path : String) (listing : List String) :
    Bool × Except PyErr String :=
  if ¬ strEndsWith file_path ".zip" then
    (false, Except.error (PyErr.valueError "The file is not a .zip archive."))
  else
    match listing.filter (fun f => strEndsWith f ".csv") with
    | [] => (true, Except.error PyErr.fileNotFoundError)
    | f :: _ => (true, Except.ok ("../data/raw/" ++ f))

/-! ### Basic lemmas about the table model -/

theorem maskList_length (keep : List Nat) (l : List Cell) :
    (maskList keep l).length = keep.length := by
  simp [maskList]

theorem maskList_getD (keep : List Nat) (l : List Cell) (j : Nat) (hj : j < keep.length) :
    (maskList keep l).getD j none = l.getD (keep.getD j 0) none := by
  simp [maskList, List.getD_eq_getElem?_getD, List.getElem?_map,
    List.getElem?_eq_getElem hj]

theorem range_map_getD {α β : Type} (l : List α) (d : α) (g : α → β) :
    (List.range l.length).map (fun j => g (l.getD j d)) = l.map g := by
  induction l with
  | nil => rfl
  | cons a as ih =>
    rw [List.length_cons, List.range_succ_eq_map, List.map_cons, List.map_map]
    simp only [List.getD_cons_zero, Function.comp_def, List.getD_cons_succ]
    rw [ih, List.map_cons]

theorem range_getD_self {α : Type} (l : List α) (d : α) :
    (List.range l.length).map (fun j => l.getD j d) = l := by
  have h := range_map_getD l d (fun a => a)
  simpa using h

theorem map_filter_comp {α β : Type} (l : List α) (f : α → β) (p : β → Bool) :
    (l.filter (fun a => p (f a))).map f = (l.map f).filter p := by
  induction l with
  | nil => rfl
  | cons a as ih =>
    by_cases h : p (f a) = true
    · simp [List.filter_cons, h, ih]
    · simp only [Bool.not_eq_true] at h
      simp [List.filter_cons, h, ih]

theorem filter_range_getD {α : Type} (l : List α) (d : α) (q : α → Bool) :
    ((List.range l.length).filter (fun j => q (l.getD j d))).map (fun j => l.getD j d) =
      l.filter q := by
  rw [map_filter_comp, range_getD_self]

theorem mem_range_filter_lt {n : Nat} {p : Nat → Bool} {j : Nat}
    (h : j ∈ (List.range n).filter p) : j < n := by
  have := List.mem_filter.mp h
  exact List.mem_range.mp this.1

theorem mapE_cons_ok {α β : Type} {f : α → Except PyErr β} {a : α} {as : List α}
    {bs : List β} (h : mapE f (a :: as) = Except.ok bs) :
    ∃ b bs', f a = Except.ok b ∧ mapE f as = Except.ok bs' ∧ bs = b :: bs' := by
  unfold mapE at h
  cases hfa : f a with
  | error e => rw [hfa] at h; cases h
  | ok b =>
    rw [hfa] at h
    cases hrest : mapE f as with
    | error e => rw [hrest] at h; cases h
    | ok bs' =>
      rw [hrest] at h
      cases h
      exact ⟨b, bs', rfl, rfl, rfl⟩

theorem mapE_congr {α β : Type} {f g : α → Except PyErr β} :
    ∀ (l : List α), (∀ a ∈ l, f a = g a) → mapE f l = mapE g l := by
  intro l
  induction l with
  | nil => intro _; rfl
  | cons a as ih =>
    intro h
    unfold mapE
    rw [h a (List.mem_cons_self a as), ih (fun x hx => h x (List.mem_cons_of_mem a hx))]

theorem mapE_ok_length {α β : Type} {f : α → Except PyErr β} :
    ∀ {l : List α} {bs : List β}, mapE f l = Except.ok bs → bs.length = l.length := by
  intro l
  induction l with
  | nil => intro bs h; cases h; rfl
  | cons a as ih =>
    intro bs h
    obtain ⟨b, bs', _, hrest, rfl⟩ := mapE_cons_ok h
    simp [ih hrest]

theorem fillColMode_ok_name {c c' : Col} (h : fillColMode c = Except.ok c') :
    c'.name = c.name := by
  unfold fillColMode at h
  cases hm : modeVal (c.cells.filterMap id) with
  | none => rw [hm] at h; cases h
  | some m => rw [hm] at h; cases h; rfl

theorem mapE_fillColMode_names :
    ∀ {cs bs : List Col}, mapE fillColMode cs = Except.ok bs →
      bs.map Col.name = cs.map Col.name := by
  intro cs
  induction cs with
  | nil => intro bs h; cases h; rfl
  | cons c cs ih =>
    intro bs h
    obtain ⟨b, bs', hb, hrest, rfl⟩ := mapE_cons_ok h
    simp [fillColMode_ok_name hb, ih hrest]

theorem find?_map_name (cols : List Col) (f : Col → Col)
    (hf : ∀ c, (f c).name = c.name) (n : String) :
    (cols.map f).find? (fun c => decide (c.name = n)) =
      (cols.find? (fun c => decide (c.name = n))).map f := by
  induction cols with
  | nil => rfl
  | cons c cs ih =>
    simp only [List.map_cons, List.find?_cons, hf c]
    by_cases h : c.name = n
    · simp [h]
    · simp [h, ih]

theorem lookupCol_mask (t : Table) (keep : List Nat) (idx' : List Nat) (n : String) :
    lookupCol (maskTable idx' keep t) n =
      (lookupCol t n).map (fun c => { c with cells := maskList keep c.cells }) := by
  unfold lookupCol maskTable
  exact find?_map_name t.cols (fun c => { c with cells := maskList keep c.cells })
    (fun c => rfl) n

theorem mask_row (t : Table) (keep : List Nat) (idx' : List Nat) (j : Nat)
    (hj : j < keep.length) :
    (maskTable idx' keep t).row j = t.row (keep.getD j 0) := by
  unfold Table.row maskTable
  rw [List.map_map]
  exact List.map_congr_left (fun c _ => maskList_getD keep c.cells j hj)

theorem mask_rows (t : Table) (keep : List Nat) (idx' : List Nat)
    (hlen : idx'.length = keep.length) :
    (maskTable idx' keep t).rows = keep.map t.row := by
  unfold Table.rows Table.rowCount
  have hidx : (maskTable idx' keep t).idx = idx' := rfl
  rw [hidx, hlen]
  rw [List.map_congr_left (fun j hj =>
    mask_row t keep idx' j (List.mem_range.mp hj))]
  exact range_map_getD keep 0 t.row

theorem fillCell_some (w : Cell) (x : Val) : fillCell w (some x) = some x := rfl

theorem fillCell_none (w : Cell) : fillCell w none = w := rfl

theorem dropna_rows (t : Table) (th : Option Nat) :
    (dropna t 0 th).rows = t.rows.filter (keepRow th) := by
  unfold dropna
  rw [if_neg (by decide : ¬ ((0 : Nat) = 1))]
  rw [mask_rows t _ _ (by simp)]
  unfold Table.rows
  exact map_filter_comp (List.range t.rowCount) t.row (keepRow th)

theorem dropna_cols (t : Table) (th : Option Nat) :
    (dropna t 1 th).cols = t.cols.filter (keepCol th) := by
  unfold dropna
  rw [if_pos rfl]

/-! ### Example tables used by the witnesses -/

/-- A small table with one numeric and one text column; the numeric column has
one missing entry (the spec scenario column 1, NaN, 3). -/
def exTable : Table :=
  { idx := [0, 1, 2],
    cols := [
      { name := "a", dtype := DType.number,
        cells := [some (Val.num 1), none, some (Val.num 3)] },
      { name := "b", dtype := DType.object,
        cells := [some (Val.str "x"), none, some (Val.str "y")] } ] }

/-- A table whose only numeric column is entirely missing. -/
def exAllMissing : Table :=
  { idx := [0],
    cols := [ { name := "a", dtype := DType.number, cells := [none] } ] }

/-- A table for the drop witnesses: the second row has one non-missing entry,
the others two; the second column contains a missing entry. -/
def exDropTable : Table :=
  { idx := [0, 1, 2],
    cols := [
      { name := "a", dtype := DType.number,
        cells := [some (Val.num 1), some (Val.num 2), some (Val.num 3)] },
      { name := "b", dtype := DType.number,
        cells := [some (Val.num 4), none, some (Val.num 6)] } ] }

/-- The spec scenario table for the row filter: rows (0,0,100,200),
(5,10,0,0), (7,20,500,900); only the third row is valid. -/
def exFilterTable : Table :=
  { idx := [0, 1, 2],
    cols := [
      { name := "vote_average", dtype := DType.number,
        cells := [some (Val.num 0), some (Val.num 5), some (Val.num 7)] },
      { name := "vote_count", dtype := DType.number,
        cells := [some (Val.num 0), some (Val.num 10), some (Val.num 20)] },
      { name := "budget", dtype := DType.number,
        cells := [some (Val.num 100), some (Val.num 0), some (Val.num 500)] },
      { name := "revenue", dtype := DType.number,
        cells := [some (Val.num 200), some (Val.num 0), some (Val.num 900)] } ] }

/-! ### Claim theorems -/

/-- C8: ingest of a path without the .zip extension fails with a format error
(ValueError) before any extraction is performed; a .zip whose extraction
directory contains no .csv file fails with FileNotFoundError (after
extraction); otherwise the first CSV in directory-listing order is loaded. -/
theorem c8_ingest_errors (p : String) (ls : List String) :
    (strEndsWith p ".zip" = false →
      ingest p ls =
        (false, Except.error (PyErr.valueError "The file is not a .zip archive."))) ∧
    (strEndsWith p ".zip" = true →
      ls.filter (fun f => strEndsWith f ".csv") = [] →
      ingest p ls = (true, Except.error PyErr.fileNotFoundError)) ∧
    (∀ f rest, strEndsWith p ".zip" = true →
      ls.filter (fun f => strEndsWith f ".csv") = f :: rest →
      ingest p ls = (true, Except.ok ("../data/raw/" ++ f))) := by
  refine ⟨fun h => ?_, fun h hcsv => ?_, fun f rest h hcsv => ?_⟩
  · unfold ingest
    rw [if_pos (by simp [h])]
  · unfold ingest
    rw [if_neg (by simp [h]), hcsv]
  · unfold ingest
    rw [if_neg (by simp [h]), hcsv]

/-- Witness for C8 at concrete inputs: a .txt path is rejected without
extraction, a .zip with no CSV raises FileNotFoundError, and a .zip whose
listing holds two CSVs loads the first. -/
theorem c8_ingest_errors_witness :
    (strEndsWith "d.txt" ".zip" = false ∧
      ingest "d.txt" ["a.csv"] =
        (false, Except.error (PyErr.valueError "The file is not a .zip archive."))) ∧
    (ingest "m.zip" ["readme.md"] = (true, Except.error PyErr.fileNotFoundError)) ∧
    (ingest "m.zip" ["readme.md", "a.csv", "b.csv"] =
      (true, Except.ok "../data/raw/a.csv")) :=
  ⟨⟨by decide, (c8_ingest_errors "d.txt" ["a.csv"]).1 (by decide)⟩,
   (c8_ingest_errors "m.zip" ["readme.md"]).2.1 (by decide) (by decide),
   (c8_ingest_errors "m.zip" ["readme.md", "a.csv", "b.csv"]).2.2 "a.csv" ["b.csv"]
     (by decide) (by decide)⟩

/-- C5: for any method name outside mean, median, mode, constant and drop the
missing-value operation is a no-op: it returns the input table unchanged (same
rows, columns and cells) and raises nothing. -/
theorem c5_unknown_policy_noop (t : Table) (m : String) (fv : Cell) (axis : Nat)
    (th : Option Nat)
    (hm : m ∉ (["mean", "median", "mode", "constant", "drop"] : List String)) :
    clean_missing_values t m fv axis th false "" = Except.ok (t, none) := by
  simp only [List.mem_cons, List.not_mem_nil, or_false, not_or] at hm
  obtain ⟨h1, h2, h3, h4, h5⟩ := hm
  unfold clean_missing_values
  simp [h1, h2, h3, h4, h5]

/-- Witness for C5: the unknown method name "foo" leaves the example table
untouched and raises nothing. -/
theorem c5_unknown_policy_noop_witness :
    ("foo" ∉ (["mean", "median", "mode", "constant", "drop"] : List String)) ∧
      clean_missing_values exTable "foo" none 0 none false "" =
        Except.ok (exTable, none) :=
  ⟨by decide, c5_unknown_policy_noop exTable "foo" none 0 none (by decide)⟩

/-- C10: on the unknown-method path clean_missing_values returns before the
persistence block: even with save set and an empty name, no file is recorded
as written and no validation error is raised. -/
theorem c10_unknown_policy_skips_save (t : Table) (m : String) (fv : Cell)
    (axis : Nat) (th : Option Nat) (save : Bool) (name : String)
    (hm : m ∉ (["mean", "median", "mode", "constant", "drop"] : List String)) :
    clean_missing_values t m fv axis th save name = Except.ok (t, none) := by
  simp only [List.mem_cons, List.not_mem_nil, or_false, not_or] at hm
  obtain ⟨h1, h2, h3, h4, h5⟩ := hm
  unfold clean_missing_values
  simp [h1, h2, h3, h4, h5]

/-- Witness for C10: with save requested and an empty name, the unknown method
"bogus" still returns the table unchanged, writes nothing and raises
nothing. -/
theorem c10_unknown_policy_skips_save_witness :
    ("bogus" ∉ (["mean", "median", "mode", "constant", "drop"] : List String)) ∧
      clean_missing_values exTable "bogus" none 0 none true "" =
        Except.ok (exTable, none) :=
  ⟨by decide, c10_unknown_policy_skips_save exTable "bogus" none 0 none true "" (by decide)⟩

/-- C2: the constant(fill_value) policy replaces every missing entry of every
column with fill_value and leaves every present value unchanged (the cells of
each column become the fillCell image of the originals); with fill_value
unset the call raises a ValueError instead of returning a table, regardless
of the save arguments. -/
theorem c2_constant_fill (t : Table) (v : Val) (axis : Nat) (th : Option Nat) :
    (∃ t', clean_missing_values t "constant" (some v) axis th false "" =
        Except.ok (t', none) ∧
      t'.idx = t.idx ∧
      t'.cols = t.cols.map (fun c => { c with cells := c.cells.map (fillCell (some v)) })) ∧
    (∀ save name, clean_missing_values t "constant" none axis th save name =
      Except.error (PyErr.valueError "fill_value must be provided for method constant")) := by
  constructor
  · refine ⟨fillAll v t, ?_, rfl, rfl⟩
    unfold clean_missing_values
    rw [if_neg (by decide), if_neg (by decide), if_pos rfl]
    rfl
  · intro save name
    unfold clean_missing_values
    rw [if_neg (by decide), if_neg (by decide), if_pos rfl]

/-- C6: dropping rows with threshold k keeps exactly the rows with at least k
non-missing values (so every surviving row has at least k and every removed
row had fewer than k); with the threshold unset, rows (axis 0) or columns
(axis 1) with at least one missing value are removed. -/
theorem c6_drop_threshold (t : Table) (k : Nat) :
    ((dropMissingValues_handle 0 (some k) t).rows =
        t.rows.filter (fun r => decide (k ≤ nonNullCount r)) ∧
      (∀ r ∈ (dropMissingValues_handle 0 (some k) t).rows, k ≤ nonNullCount r) ∧
      (∀ r ∈ t.rows, r ∉ (dropMissingValues_handle 0 (some k) t).rows →
        nonNullCount r < k)) ∧
    (dropMissingValues_handle 0 none t).rows =
      t.rows.filter (fun r => r.all (fun c => c.isSome)) ∧
    (dropMissingValues_handle 1 none t).cols =
      t.cols.filter (fun c => c.cells.all (fun x => x.isSome)) := by
  have h0 : (dropMissingValues_handle 0 (some k) t).rows =
      t.rows.filter (fun r => decide (k ≤ nonNullCount r)) := by
    unfold dropMissingValues_handle
    rw [dropna_rows]
    exact List.filter_congr (fun r _ => rfl)
  refine ⟨⟨h0, ?_, ?_⟩, ?_, ?_⟩
  · intro r hr
    rw [h0] at hr
    exact of_decide_eq_true (List.mem_filter.mp hr).2
  · intro r hrt hrnot
    rw [h0] at hrnot
    by_contra hcon
    push_neg at hcon
    exact hrnot (List.mem_filter.mpr ⟨hrt, by simpa using hcon⟩)
  · unfold dropMissingValues_handle
    rw [dropna_rows]
    exact List.filter_congr (fun r _ => rfl)
  · unfold dropMissingValues_handle
    rw [dropna_cols]
    exact List.filter_congr (fun c _ => rfl)

/-- Witness for C6: with threshold 2 on the example table, the middle row
(only one non-missing value) is removed and the two full rows survive. -/
theorem c6_drop_threshold_witness :
    (dropMissingValues_handle 0 (some 2) exDropTable).rows =
        exDropTable.rows.filter (fun r => decide (2 ≤ nonNullCount r)) ∧
      (dropMissingValues_handle 0 (some 2) exDropTable).rows =
        [[some (Val.num 1), some (Val.num 4)], [some (Val.num 3), some (Val.num 6)]] :=
  ⟨(c6_drop_threshold exDropTable 2).1.1, by decide⟩

theorem savePhase_false (t : Table) (name : String) :
    savePhase t false name = Except.ok (t, none) := rfl

theorem fillNumericCol_name (agg : List Cell → Cell) (c : Col) :
    (fillNumericCol agg c).name = c.name := by
  unfold fillNumericCol
  by_cases h : c.dtype = DType.number
  · rw [if_pos h]
  · rw [if_neg h]

theorem fillNumeric_colNames (agg : List Cell → Cell) (t : Table) :
    (fillNumeric agg t).colNames = t.colNames := by
  unfold fillNumeric Table.colNames
  simp only [List.map_map]
  exact List.map_congr_left (fun c _ => fillNumericCol_name agg c)

theorem fillAll_colNames (v : Val) (t : Table) :
    (fillAll v t).colNames = t.colNames := by
  unfold fillAll Table.colNames
  simp only [List.map_map]
  exact List.map_congr_left (fun c _ => rfl)

/-- C3: for every imputation method other than drop (mean, median, mode,
constant with a value set, and unknown names alike), whenever the operation
returns a table it has the same row count and the same column names, in the
same order, as the input. -/
theorem c3_shape_preserved (t : Table) (m : String) (fv : Cell) (axis : Nat)
    (th : Option Nat) (r : Table × Option String) (hm : m ≠ "drop")
    (h : clean_missing_values t m fv axis th false "" = Except.ok r) :
    r.1.rowCount = t.rowCount ∧ r.1.colNames = t.colNames := by
  unfold clean_missing_values at h
  by_cases h1 : m = "mean" ∨ m = "median"
  · rw [if_pos h1, savePhase_false] at h
    cases h
    by_cases hn : hasNumericCol t = true
    · rw [if_pos hn]
      exact ⟨rfl, fillNumeric_colNames _ t⟩
    · rw [if_neg hn]
      exact ⟨rfl, rfl⟩
  · rw [if_neg h1] at h
    by_cases h2 : m = "mode"
    · rw [if_pos h2] at h
      cases hmap : mapE fillColMode t.cols with
      | error e => rw [hmap] at h; cases h
      | ok cs =>
        rw [hmap] at h
        replace h : savePhase { t with cols := cs } false "" = Except.ok r := h
        rw [savePhase_false] at h
        cases h
        exact ⟨rfl, mapE_fillColMode_names hmap⟩
    · rw [if_neg h2] at h
      by_cases h3 : m = "constant"
      · rw [if_pos h3] at h
        cases fv with
        | none => cases h
        | some v =>
          replace h : savePhase (fillAll v t) false "" = Except.ok r := h
          rw [savePhase_false] at h
          cases h
          exact ⟨rfl, fillAll_colNames v t⟩
      · rw [if_neg h3, if_neg hm] at h
        cases h
        exact ⟨rfl, rfl⟩

/-- The result of mode imputation on the example table: each missing entry is
replaced by its column's modal value. -/
def exModeRes : Table :=
  { idx := [0, 1, 2],
    cols := [
      { name := "a", dtype := DType.number,
        cells := [some (Val.num 1), some (Val.num 1), some (Val.num 3)] },
      { name := "b", dtype := DType.object,
        cells := [some (Val.str "x"), some (Val.str "x"), some (Val.str "y")] } ] }

/-- Witness for C3: mode imputation on the example table succeeds and keeps
the row count and the column names. -/
theorem c3_shape_preserved_witness :
    (("mode" : String) ≠ "drop") ∧
      clean_missing_values exTable "mode" none 0 none false "" =
        Except.ok (exModeRes, none) ∧
      ((exModeRes, (none : Option String)).1.rowCount = exTable.rowCount ∧
        (exModeRes, (none : Option String)).1.colNames = exTable.colNames) :=
  ⟨by decide, by rfl,
    c3_shape_preserved exTable "mode" none 0 none (exModeRes, none) (by decide) (by rfl)⟩

theorem lookupCol_ok_name {t : Table} {n : String} {c : Col}
    (h : lookupCol t n = some c) : c.name = n := by
  have := List.find?_some h
  exact of_decide_eq_true this

theorem lookupE_ok_iff {t : Table} {n : String} {c : Col} :
    lookupE t n = Except.ok c ↔ lookupCol t n = some c := by
  unfold lookupE
  cases h : lookupCol t n with
  | none => simp
  | some c₀ => simp

theorem select_ok_iff {t u : Table} {P : List String} :
    select t P = Except.ok u ↔
      ∃ cs, mapE (lookupE t) P = Except.ok cs ∧ u = { idx := t.idx, cols := cs } := by
  unfold select
  cases hmap : mapE (lookupE t) P with
  | error e => simp
  | ok cs => simp [eq_comm]

theorem mapE_lookupE_ok (t : Table) :
    ∀ (P : List String), (∀ n ∈ P, (lookupCol t n).isSome = true) →
      ∃ cs, mapE (lookupE t) P = Except.ok cs ∧ cs.length = P.length ∧
        ∀ j : Nat, cs[j]? = (P[j]?).bind (lookupCol t) := by
  intro P
  induction P with
  | nil =>
    intro _
    exact ⟨[], rfl, rfl, fun j => by simp⟩
  | cons p P ih =>
    intro hp
    obtain ⟨c, hc⟩ := Option.isSome_iff_exists.mp (hp p (List.mem_cons_self p P))
    obtain ⟨cs, hcs, hlen, hj⟩ := ih (fun n hn => hp n (List.mem_cons_of_mem p hn))
    refine ⟨c :: cs, ?_, by simp [hlen], ?_⟩
    · unfold mapE
      rw [lookupE_ok_iff.mpr hc, hcs]
    · intro j
      cases j with
      | zero => simp [hc]
      | succ j => simpa using hj j

theorem mapE_lookupE_err (t : Table) :
    ∀ (P : List String), (∃ n ∈ P, lookupCol t n = none) →
      ∃ n, lookupCol t n = none ∧
        mapE (lookupE t) P = Except.error (PyErr.keyError n) := by
  intro P
  induction P with
  | nil => rintro ⟨n, hn, _⟩; cases hn
  | cons p P ih =>
    rintro ⟨n, hn, hnone⟩
    cases hlp : lookupCol t p with
    | none =>
      refine ⟨p, hlp, ?_⟩
      unfold mapE lookupE
      rw [hlp]
    | some c =>
      have hnP : n ∈ P := by
        rcases List.mem_cons.mp hn with rfl | h
        · rw [hlp] at hnone; cases hnone
        · exact h
      obtain ⟨n', hn', herr⟩ := ih ⟨n, hnP, hnone⟩
      refine ⟨n', hn', ?_⟩
      unfold mapE
      rw [lookupE_ok_iff.mpr hlp, herr]

/-- C4: selecting a list of column names that all exist returns the table
projected to exactly those columns in the requested order, with the row index
and all cell values preserved; with any absent name the selection raises a
KeyError and returns no table at all. -/
theorem c4_select_features (t : Table) (P : List String) :
    ((∀ n ∈ P, (lookupCol t n).isSome = true) →
      ∃ u, select t P = Except.ok u ∧ u.idx = t.idx ∧
        u.cols.length = P.length ∧
        (∀ j : Nat, u.cols[j]? = (P[j]?).bind (lookupCol t)) ∧
        u.colNames = P) ∧
    ((∃ n ∈ P, lookupCol t n = none) →
      ∃ n, select t P = Except.error (PyErr.keyError n)) := by
  constructor
  · intro hp
    obtain ⟨cs, hcs, hlen, hj⟩ := mapE_lookupE_ok t P hp
    refine ⟨{ idx := t.idx, cols := cs }, select_ok_iff.mpr ⟨cs, hcs, rfl⟩, rfl,
      hlen, hj, ?_⟩
    apply List.ext_getElem?
    intro j
    show (cs.map Col.name)[j]? = P[j]?
    rw [List.getElem?_map, hj j]
    cases hPj : P[j]? with
    | none => rfl
    | some n =>
      have hmem : n ∈ P := by
        obtain ⟨hl, rfl⟩ := List.getElem?_eq_some.mp hPj
        exact List.getElem_mem hl
      obtain ⟨c, hc⟩ := Option.isSome_iff_exists.mp (hp n hmem)
      simp [hc, lookupCol_ok_name hc]
  · intro hex
    obtain ⟨n, _, herr⟩ := mapE_lookupE_err t P hex
    refine ⟨n, ?_⟩
    unfold select
    rw [herr]

/-- Witness for C4: selecting existing columns b, a reorders them with values
intact; selecting a with the absent z raises KeyError z. -/
theorem c4_select_features_witness :
    ((∀ n ∈ (["b", "a"] : List String), (lookupCol exTable n).isSome = true) ∧
      ∃ u, select exTable ["b", "a"] = Except.ok u ∧ u.idx = exTable.idx ∧
        u.cols.length = (["b", "a"] : List String).length ∧
        (∀ j : Nat, u.cols[j]? = ((["b", "a"] : List String)[j]?).bind (lookupCol exTable)) ∧
        u.colNames = ["b", "a"]) ∧
    (∃ n, select exTable ["a", "z"] = Except.error (PyErr.keyError n)) :=
  ⟨⟨by decide, (c4_select_features exTable ["b", "a"]).1 (by decide)⟩,
   (c4_select_features exTable ["a", "z"]).2 ⟨"z", by decide, by rfl⟩⟩

theorem find?_mapE_lookupE (t : Table) :
    ∀ (P : List String) (cs : List Col), mapE (lookupE t) P = Except.ok cs →
      ∀ n ∈ P, cs.find? (fun c => decide (c.name = n)) = lookupCol t n := by
  intro P
  induction P with
  | nil => intro cs h n hn; cases hn
  | cons p P ih =>
    intro cs h n hn
    obtain ⟨b, cs', hb, hrest, rfl⟩ := mapE_cons_ok h
    have hlp : lookupCol t p = some b := lookupE_ok_iff.mp hb
    have hbp : b.name = p := lookupCol_ok_name hlp
    by_cases hbn : b.name = n
    · have hfind : (b :: cs').find? (fun c => decide (c.name = n)) = some b := by
        simp [List.find?_cons, hbn]
      cases hbn
      rw [hfind, hbp, hlp]
    · have hfind : (b :: cs').find? (fun c => decide (c.name = n)) =
          cs'.find? (fun c => decide (c.name = n)) := by
        simp [List.find?_cons, hbn]
      rw [hfind]
      have hnP : n ∈ P := by
        rcases List.mem_cons.mp hn with rfl | h
        · exact absurd hbp hbn
        · exact h
      exact ih cs' hrest n hnP

theorem lookupCol_select {t u : Table} {P : List String}
    (h : select t P = Except.ok u) : ∀ n ∈ P, lookupCol u n = lookupCol t n := by
  obtain ⟨cs, hcs, rfl⟩ := select_ok_iff.mp h
  intro n hn
  exact find?_mapE_lookupE t P cs hcs n hn

theorem select_ok_parts {t u : Table} {P : List String}
    (h : select t P = Except.ok u) :
    u.idx = t.idx ∧ mapE (lookupE t) P = Except.ok u.cols := by
  obtain ⟨cs, hcs, rfl⟩ := select_ok_iff.mp h
  exact ⟨rfl, hcs⟩

/-- C9: feature selection is idempotent — selecting the same (all-present)
list from the selection result returns that result unchanged — and selecting
a superset P and then a sublist S of P equals selecting S directly. -/
theorem c9_select_idempotent (t u : Table) (P S : List String)
    (hP : select t P = Except.ok u) (hS : ∀ n ∈ S, n ∈ P) :
    select u P = Except.ok u ∧ select u S = select t S := by
  have hl := lookupCol_select hP
  obtain ⟨hidx, hcols⟩ := select_ok_parts hP
  have hcongP : mapE (lookupE u) P = mapE (lookupE t) P :=
    mapE_congr P (fun n hn => by unfold lookupE; rw [hl n hn])
  have hcongS : mapE (lookupE u) S = mapE (lookupE t) S :=
    mapE_congr S (fun n hn => by unfold lookupE; rw [hl n (hS n hn)])
  constructor
  · unfold select
    rw [hcongP, hcols]
  · unfold select
    rw [hcongS, hidx]

/-- The result of selecting columns b, a from the example table. -/
def exSel : Table :=
  { idx := [0, 1, 2],
    cols := [
      { name := "b", dtype := DType.object,
        cells := [some (Val.str "x"), none, some (Val.str "y")] },
      { name := "a", dtype := DType.number,
        cells := [some (Val.num 1), none, some (Val.num 3)] } ] }

/-- Witness for C9: selecting b, a from the example table and then b, a again
returns the same table; selecting b, a and then a equals selecting a
directly. -/
theorem c9_select_idempotent_witness :
    select exTable ["b", "a"] = Except.ok exSel ∧
      (∀ n ∈ (["a"] : List String), n ∈ (["b", "a"] : List String)) ∧
      (select exSel ["b", "a"] = Except.ok exSel ∧
        select exSel ["a"] = select exTable ["a"]) :=
  ⟨by rfl, by decide,
    c9_select_idempotent exTable exSel ["b", "a"] ["a"] (by rfl) (by decide)⟩

theorem insertSorted_length (q : ℚ) (l : List ℚ) :
    (insertSorted q l).length = l.length + 1 := by
  induction l with
  | nil => rfl
  | cons x xs ih =>
    unfold insertSorted
    by_cases h : q ≤ x
    · rw [if_pos h]
      rfl
    · rw [if_neg h]
      simp [ih]

theorem sortQ_length (l : List ℚ) : (sortQ l).length = l.length := by
  unfold sortQ
  induction l with
  | nil => rfl
  | cons x xs ih => simp [List.foldr_cons, insertSorted_length, ih]

theorem colMean_isSome {cells : List Cell}
    (h : ∃ y ∈ cells, (Cell.toNum y).isSome = true) :
    (colMean cells).isSome = true := by
  obtain ⟨y, hy, hyn⟩ := h
  obtain ⟨q, hq⟩ := Option.isSome_iff_exists.mp hyn
  have hne : cells.filterMap Cell.toNum ≠ [] :=
    List.ne_nil_of_mem (List.mem_filterMap.mpr ⟨y, hy, hq⟩)
  simp only [colMean]
  rw [if_neg (fun h0 => hne (List.length_eq_zero.mp h0))]
  rfl

theorem colMedian_isSome {cells : List Cell}
    (h : ∃ y ∈ cells, (Cell.toNum y).isSome = true) :
    (colMedian cells).isSome = true := by
  obtain ⟨y, hy, hyn⟩ := h
  obtain ⟨q, hq⟩ := Option.isSome_iff_exists.mp hyn
  have hne : cells.filterMap Cell.toNum ≠ [] :=
    List.ne_nil_of_mem (List.mem_filterMap.mpr ⟨y, hy, hq⟩)
  have hlen : (sortQ (cells.filterMap Cell.toNum)).length ≠ 0 := by
    rw [sortQ_length]
    exact fun h0 => hne (List.length_eq_zero.mp h0)
  simp only [colMedian]
  rw [if_neg hlen]
  by_cases hp : (sortQ (cells.filterMap Cell.toNum)).length % 2 = 1
  · rw [if_pos hp]
    rfl
  · rw [if_neg hp]
    rfl

theorem hasNumericCol_false {t : Table} (h : hasNumericCol t = false) :
    ∀ c ∈ t.cols, c.dtype ≠ DType.number := by
  intro c hc hd
  simp only [hasNumericCol, List.any_eq_false, decide_eq_true_eq] at h
  exact h c hc hd

/-- Counterexample to C1 as stated: on a table whose only numeric column is
entirely missing, mean imputation returns the table unchanged — after
application the numeric column still contains a missing entry, contradicting
that numeric columns contain no missing values after mean imputation. -/
theorem c1_mean_median_counterexample :
    clean_missing_values exAllMissing "mean" none 0 none false "" =
        Except.ok (exAllMissing, none) ∧
      ∃ c ∈ exAllMissing.cols, c.dtype = DType.number ∧ none ∈ c.cells :=
  ⟨by rfl, by decide⟩

/-- C1 (amended): mean/median imputation replaces the missing entries of each
numeric column with that column's mean/median over its non-missing values
(fillCell with the column aggregate), keeps every previously-present value,
leaves non-numeric columns untouched, and returns a table without numeric
columns unchanged.  Amendment forced by the counterexample: only numeric
columns with at least one non-missing numeric value are free of missing
values afterwards; an entirely-missing numeric column stays missing. -/
theorem c1_mean_median_imputation (t : Table) (m : String)
    (hm : m = "mean" ∨ m = "median") :
    ∃ t', clean_missing_values t m none 0 none false "" = Except.ok (t', none) ∧
      t'.idx = t.idx ∧ t'.cols.length = t.cols.length ∧
      (∀ j : Nat, (hj : j < t.cols.length) →
        ∃ c c', t.cols[j]? = some c ∧ t'.cols[j]? = some c' ∧
          c'.name = c.name ∧ c'.dtype = c.dtype ∧
          (c.dtype ≠ DType.number → c' = c) ∧
          (c.dtype = DType.number →
            c'.cells = c.cells.map
              (fillCell ((if m = "mean" then colMean else colMedian) c.cells)) ∧
            (∀ i : Nat, ∀ x : Val, c.cells[i]? = some (some x) →
              c'.cells[i]? = some (some x)) ∧
            ((∃ y ∈ c.cells, (Cell.toNum y).isSome = true) →
              ∀ z ∈ c'.cells, z.isSome = true))) ∧
      (hasNumericCol t = false → t' = t) := by
  refine ⟨if hasNumericCol t = true then
      fillNumeric (if m = "mean" then colMean else colMedian) t else t, ?_, ?_, ?_, ?_, ?_⟩
  · unfold clean_missing_values
    rw [if_pos hm, savePhase_false]
  · by_cases hn : hasNumericCol t = true
    · rw [if_pos hn]
      rfl
    · rw [if_neg hn]
  · by_cases hn : hasNumericCol t = true
    · rw [if_pos hn]
      simp [fillNumeric]
    · rw [if_neg hn]
  · intro j hj
    have hc : t.cols[j]? = some t.cols[j] := List.getElem?_eq_getElem hj
    by_cases hn : hasNumericCol t = true
    · rw [if_pos hn]
      set c := t.cols[j] with hcdef
      refine ⟨c, fillNumericCol (if m = "mean" then colMean else colMedian) c, hc, ?_, ?_⟩
      · show (fillNumeric (if m = "mean" then colMean else colMedian) t).cols[j]? = _
        unfold fillNumeric
        rw [List.getElem?_map, hc, Option.map_some']
      · by_cases hd : c.dtype = DType.number
        · unfold fillNumericCol
          rw [if_pos hd]
          refine ⟨rfl, rfl, fun hnot => absurd hd hnot, fun _ => ⟨rfl, ?_, ?_⟩⟩
          · intro i x hx
            show (c.cells.map (fillCell _))[i]? = some (some x)
            rw [List.getElem?_map, hx, Option.map_some']
            rfl
          · intro hex z hz
            show z.isSome = true
            obtain ⟨y, hy, rfl⟩ := List.mem_map.mp hz
            cases y with
            | some x => rfl
            | none =>
              show (fillCell ((if m = "mean" then colMean else colMedian) c.cells) none).isSome = true
              rw [fillCell_none]
              by_cases hmean : m = "mean"
              · rw [if_pos hmean]
                exact colMean_isSome hex
              · rw [if_neg hmean]
                exact colMedian_isSome hex
        · unfold fillNumericCol
          rw [if_neg hd]
          exact ⟨rfl, rfl, fun _ => rfl, fun hd2 => absurd hd2 hd⟩
    · rw [if_neg hn]
      have hnone := hasNumericCol_false (Bool.not_eq_true _ ▸ hn : hasNumericCol t = false)
      refine ⟨t.cols[j], t.cols[j], hc, hc, rfl, rfl, fun _ => rfl, fun hd => ?_⟩
      exact absurd hd (hnone t.cols[j] (List.getElem_mem hj))
  · intro hf
    rw [if_neg (by simp [hf])]

/-- Witness for C1 at the example table (numeric column 1, NaN, 3 and a text
column): the amended mean-imputation characterization holds there. -/
theorem c1_mean_median_imputation_witness :
    (("mean" : String) = "mean" ∨ ("mean" : String) = "median") ∧
      (∃ t', clean_missing_values exTable "mean" none 0 none false "" =
          Except.ok (t', none) ∧
        t'.idx = exTable.idx ∧ t'.cols.length = exTable.cols.length ∧
        (∀ j : Nat, (hj : j < exTable.cols.length) →
          ∃ c c', exTable.cols[j]? = some c ∧ t'.cols[j]? = some c' ∧
            c'.name = c.name ∧ c'.dtype = c.dtype ∧
            (c.dtype ≠ DType.number → c' = c) ∧
            (c.dtype = DType.number →
              c'.cells = c.cells.map
                (fillCell ((if ("mean" : String) = "mean" then colMean else colMedian) c.cells)) ∧
              (∀ i : Nat, ∀ x : Val, c.cells[i]? = some (some x) →
                c'.cells[i]? = some (some x)) ∧
              ((∃ y ∈ c.cells, (Cell.toNum y).isSome = true) →
                ∀ z ∈ c'.cells, z.isSome = true))) ∧
        (hasNumericCol exTable = false → t' = exTable)) :=
  ⟨Or.inl rfl, c1_mean_median_imputation exTable "mean" (Or.inl rfl)⟩

/-- The spec scenario: the mean of the numeric column 1, NaN, 3 is 2. -/
theorem colMean_scenario :
    colMean [some (Val.num 1), none, some (Val.num 3)] = some (Val.num 2) := by
  have h : List.filterMap Cell.toNum [some (Val.num 1), none, some (Val.num 3)] =
      [1, 3] := rfl
  rw [colMean, h]
  norm_num

/-- The median of the numeric column 1, NaN, 3 is also 2. -/
theorem colMedian_scenario :
    colMedian [some (Val.num 1), none, some (Val.num 3)] = some (Val.num 2) := by
  have h : sortQ (List.filterMap Cell.toNum
      [some (Val.num 1), none, some (Val.num 3)]) = [1, 3] := rfl
  rw [colMedian, h]
  norm_num

theorem maskList_comp (k1 k2 : List Nat) (l : List Cell)
    (h : ∀ j ∈ k2, j < k1.length) :
    maskList k2 (maskList k1 l) = maskList (k2.map (fun j => k1.getD j 0)) l := by
  unfold maskList
  rw [List.map_map]
  exact List.map_congr_left (fun j hj => maskList_getD k1 l j (h j hj))

theorem cellAt_mask (t : Table) (keep idx' : List Nat) (n : String) (j : Nat)
    (hj : j < keep.length) :
    cellAt (maskTable idx' keep t) n j = cellAt t n (keep.getD j 0) := by
  unfold cellAt
  rw [lookupCol_mask]
  cases h : lookupCol t n with
  | none => rfl
  | some c =>
    simp only [Option.map_some']
    exact maskList_getD keep c.cells j hj

theorem maskTable_colNames (idx' keep : List Nat) (t : Table) :
    (maskTable idx' keep t).colNames = t.colNames := by
  unfold maskTable Table.colNames
  simp only [List.map_map]
  exact List.map_congr_left (fun c _ => rfl)

theorem maskTable_comp (t : Table) (k1 k2 i1 i2 : List Nat)
    (h : ∀ j ∈ k2, j < k1.length) :
    maskTable i2 k2 (maskTable i1 k1 t) =
      maskTable i2 (k2.map (fun j => k1.getD j 0)) t := by
  unfold maskTable
  simp only [List.map_map]
  congr 1
  refine List.map_congr_left (fun c _ => ?_)
  simp only [Function.comp_def]
  rw [maskList_comp k1 k2 c.cells h]

theorem maskTable_self (t : Table) (m : Nat) (hc : ∀ c ∈ t.cols, c.cells.length = m)
    (hidx : t.idx = List.range m) :
    maskTable (List.range m) (List.range m) t = t := by
  unfold maskTable
  have hcols : t.cols.map
      (fun c => { c with cells := maskList (List.range m) c.cells }) = t.cols := by
    conv_rhs => rw [← List.map_id t.cols]
    refine List.map_congr_left (fun c hcm => ?_)
    show ({ c with cells := maskList (List.range m) c.cells } : Col) = id c
    rw [← hc c hcm]
    rw [show maskList (List.range c.cells.length) c.cells = c.cells from
      range_getD_self c.cells none]
    rfl
  rw [hcols, ← hidx]

theorem maskTable_col_length (idx' keep : List Nat) (t : Table) :
    ∀ c ∈ (maskTable idx' keep t).cols, c.cells.length = keep.length := by
  intro c hcm
  obtain ⟨c0, _, rfl⟩ := List.mem_map.mp hcm
  exact maskList_length keep c0.cells

theorem rvote_average_ok {t : Table} {ca cc : Col}
    (ha : lookupCol t "vote_average" = some ca)
    (hc : lookupCol t "vote_count" = some cc) :
    rvote_average t = Except.ok (filterReset t ((List.range t.rowCount).filter
      (fun i => gtZero (cellAt t "vote_average" i) && gtZero (cellAt t "vote_count" i)))) := by
  have h1 : ∀ i : Nat, cellAt t "vote_average" i = ca.cells.getD i none := by
    intro i
    unfold cellAt
    rw [ha]
  have h2 : ∀ i : Nat, cellAt t "vote_count" i = cc.cells.getD i none := by
    intro i
    unfold cellAt
    rw [hc]
  have hstep : rvote_average t = Except.ok (filterReset t ((List.range t.rowCount).filter
      (fun i => gtZero (ca.cells.getD i none) && gtZero (cc.cells.getD i none)))) := by
    unfold rvote_average
    rw [ha, hc]
  have hfeq : (List.range t.rowCount).filter
        (fun i => gtZero (ca.cells.getD i none) && gtZero (cc.cells.getD i none)) =
      (List.range t.rowCount).filter
        (fun i => gtZero (cellAt t "vote_average" i) && gtZero (cellAt t "vote_count" i)) :=
    List.filter_congr (fun i _ => by rw [h1 i, h2 i])
  rw [hstep, hfeq]

theorem rbudget_revenue_ok {t : Table} {cb cr : Col}
    (hb : lookupCol t "budget" = some cb)
    (hr : lookupCol t "revenue" = some cr) :
    rbudget_revenue t = Except.ok (filterReset t ((List.range t.rowCount).filter
      (fun i => gtZero (cellAt t "budget" i) && gtZero (cellAt t "revenue" i)))) := by
  have h1 : ∀ i : Nat, cellAt t "budget" i = cb.cells.getD i none := by
    intro i
    unfold cellAt
    rw [hb]
  have h2 : ∀ i : Nat, cellAt t "revenue" i = cr.cells.getD i none := by
    intro i
    unfold cellAt
    rw [hr]
  have hstep : rbudget_revenue t = Except.ok (filterReset t ((List.range t.rowCount).filter
      (fun i => gtZero (cb.cells.getD i none) && gtZero (cr.cells.getD i none)))) := by
    unfold rbudget_revenue
    rw [hb, hr]
  have hfeq : (List.range t.rowCount).filter
        (fun i => gtZero (cb.cells.getD i none) && gtZero (cr.cells.getD i none)) =
      (List.range t.rowCount).filter
        (fun i => gtZero (cellAt t "budget" i) && gtZero (cellAt t "revenue" i)) :=
    List.filter_congr (fun i _ => by rw [h1 i, h2 i])
  rw [hstep, hfeq]

theorem filterReset_all_true (u : Table) (m : Nat) (q : Nat → Bool)
    (hru : u.rowCount = m) (hq : ∀ j, j < m → q j = true)
    (hcol : ∀ c ∈ u.cols, c.cells.length = m) (hidx : u.idx = List.range m) :
    filterReset u ((List.range u.rowCount).filter q) = u := by
  have hfull : (List.range u.rowCount).filter q = List.range m := by
    rw [hru]
    exact List.filter_eq_self.mpr (fun j hj => hq j (List.mem_range.mp hj))
  rw [hfull]
  show maskTable (List.range (List.range m).length) (List.range m) u = u
  rw [List.length_range]
  exact maskTable_self u m hcol hidx

/-- C7: on a table having numeric vote_average, vote_count, budget and revenue
columns, the composed row filter of the cleaning pipeline succeeds and keeps
exactly the rows satisfying the validity predicate, in their original order
and with their values; the result is reindexed contiguously from zero, the
column names are preserved, and filtering the filtered table again returns it
unchanged. -/
theorem c7_row_filter (t : Table) (ca cc cb cr : Col)
    (ha : lookupCol t "vote_average" = some ca)
    (hc : lookupCol t "vote_count" = some cc)
    (hb : lookupCol t "budget" = some cb)
    (hr : lookupCol t "revenue" = some cr)
    (_hda : ca.dtype = DType.number) (_hdc : cc.dtype = DType.number)
    (_hdb : cb.dtype = DType.number) (_hdr : cr.dtype = DType.number) :
    ∃ u, rowFilter t = Except.ok u ∧
      u.rows = ((List.range t.rowCount).filter (fun i => validRow t i)).map t.row ∧
      u.idx = List.range u.rowCount ∧
      u.colNames = t.colNames ∧
      rowFilter u = Except.ok u := by
  set n := t.rowCount with hn
  set q1 : Nat → Bool :=
    fun i => gtZero (cellAt t "vote_average" i) && gtZero (cellAt t "vote_count" i) with hq1
  set q2 : Nat → Bool :=
    fun i => gtZero (cellAt t "budget" i) && gtZero (cellAt t "revenue" i) with hq2
  set K1 : List Nat := (List.range n).filter q1 with hK1
  set t1 : Table := maskTable (List.range K1.length) K1 t with ht1
  have hpass1 : rvote_average t = Except.ok t1 := rvote_average_ok ha hc
  have hb1 : lookupCol t1 "budget" = some { cb with cells := maskList K1 cb.cells } := by
    rw [ht1, lookupCol_mask, hb]
    rfl
  have hr1 : lookupCol t1 "revenue" = some { cr with cells := maskList K1 cr.cells } := by
    rw [ht1, lookupCol_mask, hr]
    rfl
  have hrc1 : t1.rowCount = K1.length := by
    rw [ht1]
    show (List.range K1.length).length = K1.length
    exact List.length_range _
  set q2m : Nat → Bool :=
    fun j => gtZero (cellAt t1 "budget" j) && gtZero (cellAt t1 "revenue" j) with hq2m
  set K2 : List Nat := (List.range t1.rowCount).filter q2m with hK2
  have hpass2 : rbudget_revenue t1 = Except.ok (filterReset t1 K2) :=
    rbudget_revenue_ok hb1 hr1
  have hK2eq : K2 = (List.range K1.length).filter (fun j => q2 (K1.getD j 0)) := by
    rw [hK2, hrc1]
    refine List.filter_congr (fun j hj => ?_)
    have hjlt : j < K1.length := List.mem_range.mp hj
    rw [hq2m, hq2, ht1]
    dsimp only
    rw [cellAt_mask t K1 _ "budget" j hjlt, cellAt_mask t K1 _ "revenue" j hjlt]
  set u : Table := filterReset t1 K2 with hu
  have hubig : u = maskTable (List.range K2.length) (K2.map (fun j => K1.getD j 0)) t := by
    rw [hu, ht1]
    show maskTable (List.range K2.length) K2 (maskTable (List.range K1.length) K1 t) = _
    refine maskTable_comp t K1 K2 _ _ (fun j hj => ?_)
    rw [hK2eq] at hj
    exact mem_range_filter_lt hj
  have hvalid : ∀ i : Nat, validRow t i = (q1 i && q2 i) := by
    intro i
    rw [hq1, hq2]
    rfl
  have hKfinal : K2.map (fun j => K1.getD j 0) =
      (List.range n).filter (fun i => validRow t i) := by
    rw [hK2eq, filter_range_getD K1 0 q2, hK1, List.filter_filter]
    exact List.filter_congr (fun i _ => by rw [hvalid i, Bool.and_comm])
  have hlenKK : ((List.range n).filter (fun i => validRow t i)).length = K2.length := by
    rw [← hKfinal, List.length_map]
  have huKK : u = maskTable (List.range K2.length)
      ((List.range n).filter (fun i => validRow t i)) t := by
    rw [hubig, hKfinal]
  refine ⟨u, ?_, ?_, ?_, ?_, ?_⟩
  · unfold rowFilter
    rw [hpass1]
    exact hpass2
  · rw [huKK, hn]
    exact mask_rows t _ _ (by rw [List.length_range, hlenKK])
  · have hrcu : u.rowCount = K2.length := by
      rw [huKK]
      show (List.range K2.length).length = K2.length
      exact List.length_range _
    rw [hrcu, huKK]
    rfl
  · rw [huKK, maskTable_colNames]
  · -- idempotence
    have hrcu : u.rowCount = K2.length := by
      rw [huKK]
      show (List.range K2.length).length = K2.length
      exact List.length_range _
    have hcolu : ∀ c ∈ u.cols, c.cells.length = K2.length := by
      intro c hcm
      rw [huKK] at hcm
      have := maskTable_col_length _ _ t c hcm
      rw [this, hlenKK]
    have hidxu : u.idx = List.range K2.length := by
      rw [huKK]
      rfl
    have hau : lookupCol u "vote_average" =
        some { ca with cells := maskList ((List.range n).filter (fun i => validRow t i)) ca.cells } := by
      rw [huKK, lookupCol_mask, ha]
      rfl
    have hcu : lookupCol u "vote_count" =
        some { cc with cells := maskList ((List.range n).filter (fun i => validRow t i)) cc.cells } := by
      rw [huKK, lookupCol_mask, hc]
      rfl
    have hbu : lookupCol u "budget" =
        some { cb with cells := maskList ((List.range n).filter (fun i => validRow t i)) cb.cells } := by
      rw [huKK, lookupCol_mask, hb]
      rfl
    have hru : lookupCol u "revenue" =
        some { cr with cells := maskList ((List.range n).filter (fun i => validRow t i)) cr.cells } := by
      rw [huKK, lookupCol_mask, hr]
      rfl
    have hmemvalid : ∀ j, j < K2.length →
        validRow t (((List.range n).filter (fun i => validRow t i)).getD j 0) = true := by
      intro j hj
      have hjlt : j < ((List.range n).filter (fun i => validRow t i)).length := by
        rw [hlenKK]
        exact hj
      have hgm : ((List.range n).filter (fun i => validRow t i)).getD j 0 ∈
          (List.range n).filter (fun i => validRow t i) := by
        rw [List.getD_eq_getElem _ _ hjlt]
        exact List.getElem_mem hjlt
      exact (List.mem_filter.mp hgm).2
    have hcellu : ∀ (nm : String) (j : Nat), j < K2.length →
        cellAt u nm j = cellAt t nm
          (((List.range n).filter (fun i => validRow t i)).getD j 0) := by
      intro nm j hj
      rw [huKK]
      exact cellAt_mask t _ _ nm j (by rw [hlenKK]; exact hj)
    have hq1u : ∀ j, j < K2.length →
        (gtZero (cellAt u "vote_average" j) && gtZero (cellAt u "vote_count" j)) = true := by
      intro j hj
      rw [hcellu "vote_average" j hj, hcellu "vote_count" j hj]
      have := hmemvalid j hj
      rw [hvalid] at this
      exact (Bool.and_eq_true_iff.mp this).1
    have hq2u : ∀ j, j < K2.length →
        (gtZero (cellAt u "budget" j) && gtZero (cellAt u "revenue" j)) = true := by
      intro j hj
      rw [hcellu "budget" j hj, hcellu "revenue" j hj]
      have := hmemvalid j hj
      rw [hvalid] at this
      exact (Bool.and_eq_true_iff.mp this).2
    have hvote_u : rvote_average u = Except.ok u := by
      rw [rvote_average_ok hau hcu]
      rw [filterReset_all_true u K2.length _ hrcu
        (fun j hj => hq1u j hj) hcolu hidxu]
    have hbud_u : rbudget_revenue u = Except.ok u := by
      rw [rbudget_revenue_ok hbu hru]
      rw [filterReset_all_true u K2.length _ hrcu
        (fun j hj => hq2u j hj) hcolu hidxu]
    unfold rowFilter
    rw [hvote_u]
    exact hbud_u

/-- Witness for C7: on the spec scenario table with rows (0,0,100,200),
(5,10,0,0), (7,20,500,900) the row filter keeps exactly the third row,
renumbered from zero, and is idempotent there. -/
theorem c7_row_filter_witness :
    rowFilter exFilterTable = Except.ok
      { idx := [0],
        cols := [
          { name := "vote_average", dtype := DType.number, cells := [some (Val.num 7)] },
          { name := "vote_count", dtype := DType.number, cells := [some (Val.num 20)] },
          { name := "budget", dtype := DType.number, cells := [some (Val.num 500)] },
          { name := "revenue", dtype := DType.number, cells := [some (Val.num 900)] } ] } ∧
    (∃ u, rowFilter exFilterTable = Except.ok u ∧
      u.rows = ((List.range exFilterTable.rowCount).filter
        (fun i => validRow exFilterTable i)).map exFilterTable.row ∧
      u.idx = List.range u.rowCount ∧
      u.colNames = exFilterTable.colNames ∧
      rowFilter u = Except.ok u) :=
  ⟨by rfl,
    c7_row_filter exFilterTable
      { name := "vote_average", dtype := DType.number,
        cells := [some (Val.num 0), some (Val.num 5), some (Val.num 7)] }
      { name := "vote_count", dtype := DType.number,
        cells := [some (Val.num 0), some (Val.num 10), some (Val.num 20)] }
      { name := "budget", dtype := DType.number,
        cells := [some (Val.num 100), some (Val.num 0), some (Val.num 500)] }
      { name := "revenue", dtype := DType.number,
        cells := [some (Val.num 200), some (Val.num 0), some (Val.num 900)] }
      (by rfl) (by rfl) (by rfl) (by rfl) rfl rfl rfl rfl⟩
